import Mathlib

/-
Verification development for the Dist_PromptRefiner orchestrator core.

Shallow embedding of:
  - src/orchestrator/resources/token_bucket_manager.cpp  (TokenBucketResourceManager::Impl)
  - src/orchestrator/agent_lifecycle.cpp                 (AgentLifecycle::Impl)
  - src/geometric/region_assigner.cpp                    (RegionAssigner)
  - src/geometric/spatial_partitioner.cpp                (SpatialPartitioner)

Conventions:
  - C++ `int` / `long` become `Int` (the claims do not hinge on 32/64-bit overflow).
  - `std::chrono` time points and durations become `Int` milliseconds; the ambient
    "now" of `std::chrono::system_clock::now()` is passed as an explicit parameter.
  - C++ `double` coordinates become `ℚ`; the geometric code only compares, subtracts
    and sorts coordinates, which `ℚ` mirrors exactly on the inputs used here.
  - `std::map` / `std::unordered_map` become total functions into `Option` (point
    lookups and point updates only) or association lists where the claims need to
    iterate or sum over the entries.
  - C++ exceptions become `Except`; functions that cannot throw stay total.
-/

namespace DistPrompt

/-! Token bucket resource manager (token_bucket_manager.cpp). -/

/-- `TokenBucketResourceManager::ResourceConfig` (token_bucket_manager.h).
`refillInterval` is the millisecond count of the `std::chrono::milliseconds` field. -/
structure ResourceConfig where
  resourceType : String
  maxTokens : Int
  refillRate : Int
  burstSize : Int
  refillInterval : Int
deriving Repr, DecidableEq

/-- `Impl::TokenBucket`. The mutex is concurrency plumbing and has no state;
the three `std::atomic<long>` statistics counters are kept as `Int`. -/
structure TokenBucket where
  resourceType : String
  maxTokens : Int
  currentTokens : Int
  refillRate : Int
  burstSize : Int
  refillInterval : Int
  lastRefill : Int
  totalRequests : Int
  successfulRequests : Int
  totalTokensDispensed : Int
deriving Repr, DecidableEq

/-- `Impl::Allocation`. -/
structure Allocation where
  allocationId : String
  agentId : String
  resourceType : String
  tokensAllocated : Int
  allocationTime : Int
  expirationTime : Int
deriving Repr, DecidableEq

/-- `TokenBucketResourceManager::ResourceRequest`. -/
structure ResourceRequest where
  agentId : String
  resourceType : String
  tokensRequested : Int
  priority : Int
  timeout : Int
deriving Repr, DecidableEq

/-- `TokenBucketResourceManager::AllocationResult`. -/
structure AllocationResult where
  success : Bool
  tokensAllocated : Int
  allocationId : String
  expirationTime : Int
  errorMessage : String
deriving Repr, DecidableEq

/-- The mutable state of `TokenBucketResourceManager::Impl`:
`buckets_`, `allocations_`, `agentAllocations_`, `agentQuotas_`.
`allocations_` is kept as a list so that claims can sum over it;
`agentAllocations_` maps absent entries to 0, matching `operator[]` reads. -/
structure ManagerState where
  buckets : String → Option TokenBucket
  allocations : List Allocation
  agentAllocations : String → String → Int
  agentQuotas : String → String → Option Int

/-- Point update of the bucket map, as `buckets_[key] = bucket`. -/
def updateBucket (buckets : String → Option TokenBucket) (rt : String)
    (b : TokenBucket) : String → Option TokenBucket :=
  fun r => if r = rt then some b else buckets r

/-- The bucket built by `Impl::createBucket` from a config ("Start full"). -/
def mkBucket (config : ResourceConfig) (now : Int) : TokenBucket :=
  { resourceType := config.resourceType
    maxTokens := config.maxTokens
    currentTokens := config.maxTokens
    refillRate := config.refillRate
    burstSize := config.burstSize
    refillInterval := config.refillInterval
    lastRefill := now
    totalRequests := 0
    successfulRequests := 0
    totalTokensDispensed := 0 }

/-- `Impl::createBucket`: unconditionally writes `buckets_[config.resourceType]`
(overwriting any existing bucket) and returns `true`. -/
def createBucket (buckets : String → Option TokenBucket) (config : ResourceConfig)
    (now : Int) : Bool × (String → Option TokenBucket) :=
  (true, updateBucket buckets config.resourceType (mkBucket config now))

/-- `Impl::registerResource`: takes the lock and calls `createBucket`. -/
def registerResource (s : ManagerState) (config : ResourceConfig) (now : Int) :
    Bool × ManagerState :=
  let (ok, buckets) := createBucket s.buckets config now
  (ok, { s with buckets := buckets })

/-- The state right after `Impl::initialize(configs)` on a fresh manager:
`buckets_` is cleared and then `createBucket` runs for each config
(`createBucket` never fails, so `initialize` always returns `true`).
The agent quota table is whatever `setAgentQuota` calls have installed. -/
def initialState (configs : List ResourceConfig) (now : Int)
    (quotas : String → String → Option Int) : ManagerState :=
  { buckets := configs.foldl (fun b c => (createBucket b c now).2) (fun _ => none)
    allocations := []
    agentAllocations := fun _ _ => 0
    agentQuotas := quotas }

/-- `Impl::refillBucket`. C++ duration division truncates toward zero
(`Int.tdiv`); note the code sets `lastRefill` to `now`, not to
`lastRefill + intervalsElapsed * refillInterval`. -/
def refillBucket (bucket : TokenBucket) (now : Int) : TokenBucket :=
  let timeSinceLastRefill := now - bucket.lastRefill
  if bucket.refillInterval ≤ timeSinceLastRefill then
    let intervalsElapsed := timeSinceLastRefill.tdiv bucket.refillInterval
    let tokensToAdd := min (intervalsElapsed * bucket.refillRate) bucket.burstSize
    { bucket with
      currentTokens := min (bucket.currentTokens + tokensToAdd) bucket.maxTokens
      lastRefill := now }
  else
    bucket

/-- Modelled from the spec: "compute elapsed = now − lastRefill;
tokensToAdd = floor(elapsed / refillInterval) × refillRate, clamped to burstSize,
then clamped so current ≤ max; update lastRefill only for the intervals actually
consumed."  `Int.fdiv` is floor division.  This definition follows the spec's
words and is compared against `refillBucket`, which is translated from the code. -/
def refillBucketSpec (bucket : TokenBucket) (now : Int) : TokenBucket :=
  let elapsed := now - bucket.lastRefill
  let intervals := elapsed.fdiv bucket.refillInterval
  let tokensToAdd := min (intervals * bucket.refillRate) bucket.burstSize
  { bucket with
    currentTokens := min (bucket.currentTokens + tokensToAdd) bucket.maxTokens
    lastRefill := bucket.lastRefill + intervals * bucket.refillInterval }

/-- `Impl::getAgentAllocation` (absent map entries read as 0). -/
def getAgentAllocation (s : ManagerState) (agentId resourceType : String) : Int :=
  s.agentAllocations agentId resourceType

/-- `Impl::checkAgentQuota`: no quota entry means unlimited. -/
def checkAgentQuota (s : ManagerState) (agentId resourceType : String)
    (requestedTokens : Int) : Bool :=
  match s.agentQuotas agentId resourceType with
  | none => true
  | some quota => decide (getAgentAllocation s agentId resourceType + requestedTokens ≤ quota)

/-- `allocations_[allocationId] = allocation`: replace-or-insert keyed on the id. -/
def insertAllocation (allocations : List Allocation) (a : Allocation) :
    List Allocation :=
  allocations.filter (fun b => ¬ b.allocationId = a.allocationId) ++ [a]

/-- `agentAllocations_[agentId][resourceType] += delta` (absent entries read 0). -/
def bumpAgentAllocation (m : String → String → Int) (agentId resourceType : String)
    (delta : Int) : String → String → Int :=
  fun a r => if a = agentId ∧ r = resourceType then m a r + delta else m a r

/-- `Impl::requestResources`.  `now` stands for `system_clock::now()`; `allocId`
is the value produced by `generateAllocationId()` (a random 16-hex-digit string).
The C++ code holds a reference into `buckets_`, so the statistics increment and
the refill persist in the map even when the request is denied. -/
def requestResources (s : ManagerState) (request : ResourceRequest) (now : Int)
    (allocId : String) : AllocationResult × ManagerState :=
  match s.buckets request.resourceType with
  | none =>
    ({ success := false, tokensAllocated := 0, allocationId := "", expirationTime := 0
       errorMessage := "Resource type not found: " ++ request.resourceType }, s)
  | some bucket0 =>
    let bucket := { bucket0 with totalRequests := bucket0.totalRequests + 1 }
    if ¬ checkAgentQuota s request.agentId request.resourceType request.tokensRequested then
      ({ success := false, tokensAllocated := 0, allocationId := "", expirationTime := 0
         errorMessage := "Agent quota exceeded" },
       { s with buckets := updateBucket s.buckets request.resourceType bucket })
    else
      let bucket := refillBucket bucket now
      if request.tokensRequested ≤ bucket.currentTokens then
        let bucket :=
          { bucket with
            currentTokens := bucket.currentTokens - request.tokensRequested
            successfulRequests := bucket.successfulRequests + 1
            totalTokensDispensed := bucket.totalTokensDispensed + request.tokensRequested }
        let allocation : Allocation :=
          { allocationId := allocId
            agentId := request.agentId
            resourceType := request.resourceType
            tokensAllocated := request.tokensRequested
            allocationTime := now
            expirationTime := now + request.timeout }
        ({ success := true, tokensAllocated := request.tokensRequested
           allocationId := allocId, expirationTime := allocation.expirationTime
           errorMessage := "" },
         { s with
           buckets := updateBucket s.buckets request.resourceType bucket
           allocations := insertAllocation s.allocations allocation
           agentAllocations :=
             bumpAgentAllocation s.agentAllocations request.agentId
               request.resourceType request.tokensRequested })
      else
        ({ success := false, tokensAllocated := 0, allocationId := "", expirationTime := 0
           errorMessage := "Insufficient tokens available. Requested: " ++
             toString request.tokensRequested ++ ", Available: " ++
             toString bucket.currentTokens },
         { s with buckets := updateBucket s.buckets request.resourceType bucket })

/-- `Impl::releaseResources`.  C++ erases the agent-allocation map entry when it
drops to ≤ 0; since absent entries read as 0, that is modelled by clamping the
stored value at 0. -/
def releaseResources (s : ManagerState) (allocationId : String) :
    Bool × ManagerState :=
  match s.allocations.find? (fun a => a.allocationId = allocationId) with
  | none => (false, s)
  | some allocation =>
    let buckets :=
      match s.buckets allocation.resourceType with
      | none => s.buckets
      | some bucket =>
        updateBucket s.buckets allocation.resourceType
          { bucket with
            currentTokens :=
              min (bucket.currentTokens + allocation.tokensAllocated) bucket.maxTokens }
    let remaining :=
      s.agentAllocations allocation.agentId allocation.resourceType -
        allocation.tokensAllocated
    (true,
     { s with
       buckets := buckets
       allocations := s.allocations.filter (fun a => ¬ a.allocationId = allocationId)
       agentAllocations := fun a r =>
         if a = allocation.agentId ∧ r = allocation.resourceType then
           (if remaining ≤ 0 then 0 else remaining)
         else s.agentAllocations a r })

/-- One iteration of the body of `Impl::refillLoop` for a single bucket
(also the refill performed inside `requestResources`). -/
def refillOp (s : ManagerState) (rt : String) (now : Int) : ManagerState :=
  match s.buckets rt with
  | none => s
  | some b => { s with buckets := updateBucket s.buckets rt (refillBucket b now) }

/-- Sum of `tokensAllocated` over the outstanding allocations of one bucket. -/
def outstanding : List Allocation → String → Int
  | [], _ => 0
  | a :: rest, rt =>
    (if a.resourceType = rt then a.tokensAllocated else 0) + outstanding rest rt

/-- A resource configuration with non-negative token parameters and a positive
refill interval (the regime the spec's invariants are about). -/
def WFConfig (c : ResourceConfig) : Prop :=
  0 ≤ c.maxTokens ∧ 0 ≤ c.refillRate ∧ 0 ≤ c.burstSize ∧ 0 < c.refillInterval

/-- Manager states reachable from `initialize` by `requestResources`,
`releaseResources` and refill steps.  `generateAllocationId` draws a fresh
random id, modelled by requiring `allocId` to be unused; requests are for
non-negative token counts. -/
inductive TBReachable : ManagerState → Prop where
  | init (configs : List ResourceConfig) (now : Int)
      (quotas : String → String → Option Int)
      (hwf : ∀ c ∈ configs, WFConfig c) :
      TBReachable (initialState configs now quotas)
  | request (s : ManagerState) (req : ResourceRequest) (now : Int) (allocId : String)
      (hs : TBReachable s) (hreq : 0 ≤ req.tokensRequested)
      (hfresh : ∀ a ∈ s.allocations, a.allocationId ≠ allocId) :
      TBReachable (requestResources s req now allocId).2
  | release (s : ManagerState) (allocationId : String) (hs : TBReachable s) :
      TBReachable (releaseResources s allocationId).2
  | refill (s : ManagerState) (rt : String) (now : Int) (hs : TBReachable s) :
      TBReachable (refillOp s rt now)

/-- The invariant claimed by the spec, verbatim: bounds on `currentTokens` and
the outstanding-allocation sum equal to `maxTokens - currentTokens`. -/
def SumEqInvariant (s : ManagerState) : Prop :=
  ∀ rt b, s.buckets rt = some b →
    0 ≤ b.currentTokens ∧ b.currentTokens ≤ b.maxTokens ∧
    outstanding s.allocations rt = b.maxTokens - b.currentTokens

/-- The invariant the code actually maintains: bounds on `currentTokens`,
the outstanding sum bounds `maxTokens - currentTokens` from above (a refill
that adds tokens only raises `currentTokens`, turning the equality into `≥`),
together with the auxiliary facts that make it inductive. -/
def BucketInvariant (s : ManagerState) : Prop :=
  (∀ rt b, s.buckets rt = some b →
    0 ≤ b.currentTokens ∧ b.currentTokens ≤ b.maxTokens ∧
    b.maxTokens - b.currentTokens ≤ outstanding s.allocations rt ∧
    0 ≤ b.refillRate ∧ 0 ≤ b.burstSize ∧ 0 < b.refillInterval) ∧
  (∀ a ∈ s.allocations, 0 ≤ a.tokensAllocated ∧
    ∃ b, s.buckets a.resourceType = some b) ∧
  s.allocations.Pairwise (fun a b => a.allocationId ≠ b.allocationId)

/-! Agent lifecycle FSM (agent_lifecycle.cpp, the `AgentLifecycle::Impl` design). -/

/-- `AgentLifecycle::State`. -/
inductive LifecycleState where
  | uninitialized | initializing | ready | running | paused | error | terminated
deriving Repr, DecidableEq

/-- `AgentLifecycle::Event`. -/
inductive LifecycleEvent where
  | initializeEv | initializationComplete | initializationFailed
  | start | stop | pause | resume | errorOccurred | recoveryComplete | terminate
deriving Repr, DecidableEq

/-- `AgentLifecycle::AgentContext`.  The two `double` usage metrics become `ℚ`. -/
structure AgentContext where
  id : String
  name : String
  type : String
  parameters : List (String × String)
  metadata : List (String × String)
  currentState : LifecycleState := .uninitialized
  previousState : LifecycleState := .uninitialized
  cpuUsage : ℚ := 0
  memoryUsage : ℚ := 0
  operationsCompleted : Int := 0
  operationsFailed : Int := 0

/-- `Impl::Transition`: target state plus an optional transition handler.
The `std::function` handler is modelled as a Lean function on the context. -/
structure Transition where
  targetState : LifecycleState
  handler : Option (AgentContext → String → AgentContext)

/-- A record of one hook invocation performed by `triggerEvent`, used to state
"no exit, transition, or entry hook is invoked". -/
inductive HookCall where
  | exitHook (s : LifecycleState)
  | transitionHook (s : LifecycleState) (e : LifecycleEvent)
  | entryHook (s : LifecycleState)
deriving Repr, DecidableEq

/-- The mutable state of `AgentLifecycle::Impl`: `agents_`, `transitions_`,
`stateEntryHandlers_`, `stateExitHandlers_`.  The transition table is keyed on
(state, event) pairs; `agents_` is an association list keyed on the agent id. -/
structure LifecycleImpl where
  agents : List (String × AgentContext)
  transitions : List ((LifecycleState × LifecycleEvent) × Transition)
  stateEntryHandlers : LifecycleState → Option (AgentContext → AgentContext)
  stateExitHandlers : LifecycleState → Option (AgentContext → AgentContext)

/-- Lookup in `transitions_` by `TransitionKey{currentState, event}`. -/
def findTransition (transitions : List ((LifecycleState × LifecycleEvent) × Transition))
    (s : LifecycleState) (e : LifecycleEvent) : Option Transition :=
  (transitions.find? (fun t => t.1 = (s, e))).map (·.2)

/-- Lookup in `agents_` by id. -/
def lookupAgent (agents : List (String × AgentContext)) (agentId : String) :
    Option AgentContext :=
  (agents.find? (fun p => p.1 = agentId)).map (·.2)

/-- `agents_[agentId] = context` on an existing key. -/
def updateAgent (agents : List (String × AgentContext)) (agentId : String)
    (ctx : AgentContext) : List (String × AgentContext) :=
  agents.map (fun p => if p.1 = agentId then (agentId, ctx) else p)

/-- The transition table installed by `Impl::setupDefaultTransitions`.
Note there is no entry keyed on `terminated` at all. -/
def defaultTransitions : List ((LifecycleState × LifecycleEvent) × Transition) :=
  [ ((.uninitialized, .initializeEv), ⟨.initializing, none⟩)
  , ((.initializing, .initializationComplete), ⟨.ready, none⟩)
  , ((.initializing, .initializationFailed), ⟨.error, none⟩)
  , ((.ready, .start), ⟨.running, none⟩)
  , ((.running, .stop), ⟨.ready, none⟩)
  , ((.running, .pause), ⟨.paused, none⟩)
  , ((.paused, .resume), ⟨.running, none⟩)
  , ((.paused, .stop), ⟨.ready, none⟩)
  , ((.running, .errorOccurred), ⟨.error, none⟩)
  , ((.error, .recoveryComplete), ⟨.ready, none⟩)
  , ((.uninitialized, .terminate), ⟨.terminated, none⟩)
  , ((.initializing, .terminate), ⟨.terminated, none⟩)
  , ((.ready, .terminate), ⟨.terminated, none⟩)
  , ((.running, .terminate), ⟨.terminated, none⟩)
  , ((.paused, .terminate), ⟨.terminated, none⟩)
  , ((.error, .terminate), ⟨.terminated, none⟩) ]

/-- `Impl::triggerEvent`.  Returns the C++ `bool`, the updated `Impl` state and
the ordered list of hook invocations it performed:
exit(old) → transition handler → state update → entry(new). -/
def triggerEvent (impl : LifecycleImpl) (agentId : String) (event : LifecycleEvent)
    (eventData : String) : Bool × LifecycleImpl × List HookCall :=
  match lookupAgent impl.agents agentId with
  | none => (false, impl, [])
  | some context =>
    let currentState := context.currentState
    match findTransition impl.transitions currentState event with
    | none => (false, impl, [])
    | some transition =>
      let targetState := transition.targetState
      let (context, calls) :=
        match impl.stateExitHandlers currentState with
        | some h => (h context, [HookCall.exitHook currentState])
        | none => (context, [])
      let (context, calls) :=
        match transition.handler with
        | some h => (h context eventData, calls ++ [HookCall.transitionHook currentState event])
        | none => (context, calls)
      let context := { context with previousState := currentState, currentState := targetState }
      let (context, calls) :=
        match impl.stateEntryHandlers targetState with
        | some h => (h context, calls ++ [HookCall.entryHook targetState])
        | none => (context, calls)
      (true, { impl with agents := updateAgent impl.agents agentId context }, calls)

/-- The agent context produced by a successful `triggerEvent` (the branch of
`Impl::triggerEvent` where a transition was found), factored out so theorems can
name it: exit hook on the old state, transition handler, state update, entry
hook on the target state. -/
def postContext (impl : LifecycleImpl) (ctx : AgentContext) (eventData : String)
    (tr : Transition) : AgentContext :=
  let currentState := ctx.currentState
  let c1 :=
    match impl.stateExitHandlers currentState with
    | some h => h ctx
    | none => ctx
  let c2 :=
    match tr.handler with
    | some h => h c1 eventData
    | none => c1
  let c3 := { c2 with previousState := currentState, currentState := tr.targetState }
  match impl.stateEntryHandlers tr.targetState with
  | some h => h c3
  | none => c3

/-- `Impl::getAgentState`: throws `std::invalid_argument` on an unknown id,
modelled as `Except.error` carrying the exception message. -/
def getAgentState (impl : LifecycleImpl) (agentId : String) :
    Except String LifecycleState :=
  match lookupAgent impl.agents agentId with
  | none => .error ("Agent not found: " ++ agentId)
  | some ctx => .ok ctx.currentState

/-- `Impl::getAgentContext`: throws `std::invalid_argument` on an unknown id. -/
def getAgentContext (impl : LifecycleImpl) (agentId : String) :
    Except String AgentContext :=
  match lookupAgent impl.agents agentId with
  | none => .error ("Agent not found: " ++ agentId)
  | some ctx => .ok ctx

/-! Spatial partitioner and region assigner (spatial_partitioner.cpp,
region_assigner.cpp).  Coordinates are `ℚ`. -/

/-- `SpatialPartitioner::Point`. -/
structure Point where
  coordinates : List ℚ
  id : String
  metadata : List (String × String)
deriving Repr, DecidableEq

/-- `SpatialPartitioner::Region`. -/
structure Region where
  id : String
  name : String
  points : List Point
  min : List ℚ
  max : List ℚ
deriving Repr, DecidableEq

/-- `SpatialPartitioner::KdNode`.  The C++ struct always carries a `region`
field but only leaves fill it in; internal nodes carry the split data. -/
inductive KdNode where
  | leaf (region : Region)
  | node (splitDimension : Nat) (splitValue : ℚ) (left right : KdNode)
deriving Repr

/-- Coordinate access `v[d]` (always in range on well-formed inputs). -/
def coordAt (l : List ℚ) (d : Nat) : ℚ :=
  l.getD d 0

/-- Insertion of one value into an ascending-sorted list. -/
def insertSorted (x : ℚ) : List ℚ → List ℚ
  | [] => [x]
  | y :: ys => if x ≤ y then x :: y :: ys else y :: insertSorted x ys

/-- Ascending sort, as `std::sort(values.begin(), values.end())`. -/
def sortQ : List ℚ → List ℚ
  | [] => []
  | x :: xs => insertSorted x (sortQ xs)

/-- The id given to a leaf region: `"R" + std::to_string(regions_.size() + 1)`.
`regions_.size()` is passed in as `regionsCount`. -/
def leafId (regionsCount : Nat) : String :=
  "R" ++ toString (regionsCount + 1)

/-- The name given to a leaf region: `"Region " + std::to_string(regions_.size() + 1)`. -/
def leafName (regionsCount : Nat) : String :=
  "Region " ++ toString (regionsCount + 1)

/-- `SpatialPartitioner::buildKdTreeRecursive`.  `regionsCount` is the value of
`regions_.size()`: the recursion reads it at every leaf but never appends to
`regions_` (the vector is only repopulated by `collectRegions` after the whole
build), so it is the same at every leaf of one build.  The C++ guard
`depth >= maxDepth_` is carried as the remaining depth budget
`fuel = maxDepth - depth`, which reaches 0 exactly when `depth ≥ maxDepth`
(`buildKdTree` starts the recursion with `fuel = maxDepth`, `depth = 0`, and
each recursive call increments `depth` while decrementing `fuel`). -/
def buildKdTreeRecursive (dimensions regionsCount : Nat) :
    Nat → List Point → Nat → List ℚ → List ℚ → KdNode
  | 0, points, _depth, mn, mx =>
    .leaf { id := leafId regionsCount, name := leafName regionsCount
            points := points, min := mn, max := mx }
  | fuel + 1, points, depth, mn, mx =>
    if points.length ≤ 5 then
      .leaf { id := leafId regionsCount, name := leafName regionsCount
              points := points, min := mn, max := mx }
    else
      let splitDim := depth % dimensions
      let values := points.map (fun p => coordAt p.coordinates splitDim)
      let median := coordAt (sortQ values) (values.length / 2)
      let leftPoints := points.filter (fun p => decide (coordAt p.coordinates splitDim ≤ median))
      let rightPoints := points.filter (fun p => !decide (coordAt p.coordinates splitDim ≤ median))
      if leftPoints.isEmpty || rightPoints.isEmpty then
        .leaf { id := leafId regionsCount, name := leafName regionsCount
                points := points, min := mn, max := mx }
      else
        .node splitDim median
          (buildKdTreeRecursive dimensions regionsCount fuel leftPoints (depth + 1)
            mn (mx.set splitDim median))
          (buildKdTreeRecursive dimensions regionsCount fuel rightPoints (depth + 1)
            (mn.set splitDim median) mx)

/-- `SpatialPartitioner::collectRegions`: in-order collection of leaf regions. -/
def collectRegions : KdNode → List Region
  | .leaf region => [region]
  | .node _ _ left right => collectRegions left ++ collectRegions right

/-- Minimum of coordinate `d` over the points.  The C++ folds from the
`DBL_MAX` sentinel; on a non-empty point list this is the true minimum,
modelled directly (the empty case never reaches this fold). -/
def dimMin (points : List Point) (d : Nat) : ℚ :=
  match points with
  | [] => 0
  | p :: rest => rest.foldl (fun acc q => min acc (coordAt q.coordinates d)) (coordAt p.coordinates d)

/-- Maximum of coordinate `d` over the points (sentinel `lowest()`, as above). -/
def dimMax (points : List Point) (d : Nat) : ℚ :=
  match points with
  | [] => 0
  | p :: rest => rest.foldl (fun acc q => max acc (coordAt q.coordinates d)) (coordAt p.coordinates d)

/-- `SpatialPartitioner::buildKdTree` followed by `getRegions`: `none` models the
`return false` on an empty point set; otherwise the regions collected from the
freshly built tree.  `regionsCount` is `regions_.size()` on entry (0 on a fresh
partitioner, since `regions_` is cleared only after the recursive build). -/
def buildKdTree (dimensions maxDepth : Nat) (points : List Point)
    (regionsCount : Nat) : Option (List Region) :=
  if points.isEmpty then none
  else
    let mn := (List.range dimensions).map (dimMin points)
    let mx := (List.range dimensions).map (dimMax points)
    some (collectRegions (buildKdTreeRecursive dimensions regionsCount maxDepth points 0 mn mx))

/-- The ε of `RegionAssigner::areRegionsAdjacent` (`1e-6`). -/
def epsilonGeo : ℚ :=
  1 / 1000000

/-- The per-dimension touch test of `areRegionsAdjacent`:
`|region1.min[dim] - region2.max[dim]| < 1e-6` or
`|region1.max[dim] - region2.min[dim]| < 1e-6`. -/
def touchesAt (region1 region2 : Region) (dim : Nat) : Bool :=
  decide (|coordAt region1.min dim - coordAt region2.max dim| < epsilonGeo) ||
  decide (|coordAt region1.max dim - coordAt region2.min dim| < epsilonGeo)

/-- The per-dimension overlap test of `areRegionsAdjacent`: fails iff
`region1.max[d] < region2.min[d] || region1.min[d] > region2.max[d]`. -/
def overlapsAt (region1 region2 : Region) (d : Nat) : Bool :=
  !(decide (coordAt region1.max d < coordAt region2.min d) ||
    decide (coordAt region1.min d > coordAt region2.max d))

/-- `RegionAssigner::areRegionsAdjacent`: true iff some dimension touches and
every other dimension overlaps (`dimensions = region1.min.size()`). -/
def areRegionsAdjacent (region1 region2 : Region) : Bool :=
  let dimensions := region1.min.length
  (List.range dimensions).any fun dim =>
    touchesAt region1 region2 dim &&
    (List.range dimensions).all fun d => d == dim || overlapsAt region1 region2 d

/-- The edges inserted by the double loop of `RegionAssigner::determineAdjacency`
(for each `i < j` with `areRegionsAdjacent`, both directions are inserted into
`adjacencyGraph_`).  The C++ map of sets is modelled as this edge list. -/
def adjacencyEdges : List Region → List (String × String)
  | [] => []
  | r :: rest =>
    ((rest.filter (fun s => areRegionsAdjacent r s)).map
      (fun s => [(r.id, s.id), (s.id, r.id)])).flatten ++ adjacencyEdges rest

/-- `RegionAssigner::determineAdjacency`: false on an empty region list,
otherwise true with the adjacency graph built. -/
def determineAdjacency (regions : List Region) : Bool × List (String × String) :=
  if regions.isEmpty then (false, [])
  else (true, adjacencyEdges regions)

/-- `RegionAssigner::ColoredRegion`.  `color` is the enum value as an `Int`;
`-1` is the "unset" sentinel (`static_cast<Color>(-1)`). -/
structure ColoredRegion where
  id : String
  name : String
  color : Int
  adjacentRegions : List String
deriving Repr, DecidableEq

/-- The adjacency set `adjacencyGraph_[id]`, read from the edge list. -/
def adjacentIds (graph : List (String × String)) (id : String) : List String :=
  (graph.filter (fun e => e.1 = id)).map (·.2)

/-- `RegionAssigner::isColorValid`. -/
def isColorValid (regions : List Region) (graph : List (String × String))
    (regionIdx : Nat) (color : Int) (colors : List Int) : Bool :=
  match regions.get? regionIdx with
  | none => true
  | some region =>
    (adjacentIds graph region.id).all fun adjId =>
      match regions.findIdx? (fun r => r.id = adjId) with
      | none => true
      | some adjIdx =>
        !(decide (colors.getD adjIdx (-1) ≠ -1) && decide (colors.getD adjIdx (-1) = color))

/-- `RegionAssigner::tryColor`: backtracking search over colors 0..3; the C++
mutates `colors` in place and resets on backtrack, modelled functionally by
returning the successful assignment (or `none`). -/
def tryColor (regions : List Region) (graph : List (String × String)) :
    Nat → List Int → Option (List Int)
  | regionIdx, colors =>
    if _h : regions.length ≤ regionIdx then
      some colors
    else
      let attempt : Int → Option (List Int) := fun c =>
        if isColorValid regions graph regionIdx c colors then
          tryColor regions graph (regionIdx + 1) (colors.set regionIdx c)
        else none
      (attempt 0).orElse fun _ =>
        (attempt 1).orElse fun _ =>
          (attempt 2).orElse fun _ => attempt 3
termination_by regionIdx _ => regions.length - regionIdx
decreasing_by simp at _h; omega

/-- `RegionAssigner::assignColors`.  Takes the current `coloredRegions_` so the
early-return branch can be seen to leave it untouched; on a failed search the
rebuilt entries keep the `-1` sentinel (the C++ leaves the enum default-initialized). -/
def assignColors (regions : List Region) (graph : List (String × String))
    (coloredRegionsPrev : List ColoredRegion) : Bool × List ColoredRegion :=
  if regions.isEmpty || graph.isEmpty then
    (false, coloredRegionsPrev)
  else
    let coloredRegions : List ColoredRegion := regions.map fun region =>
      { id := region.id, name := region.name, color := -1
        adjacentRegions := adjacentIds graph region.id }
    match tryColor regions graph 0 (List.replicate regions.length (-1)) with
    | some colors =>
      (true, (coloredRegions.zip colors).map fun p => { p.1 with color := p.2 })
    | none => (false, coloredRegions)

/-- Modelled from the spec: "Two regions are adjacent iff along exactly one axis
their bounds touch (|R.max_i − S.min_i| < ε or symmetric) and along every other
axis their bounds overlap (R.max_j ≥ S.min_j and R.min_j ≤ S.max_j)."
The per-axis touch test is the same `touchesAt`; "every other axis" is every
non-touching axis.  Compared against `areRegionsAdjacent` from the code. -/
def SpecAdjacentClaim (region1 region2 : Region) : Prop :=
  ((List.range region1.min.length).countP fun i => touchesAt region1 region2 i) = 1 ∧
  ∀ j < region1.min.length, touchesAt region1 region2 j = false →
    coordAt region2.min j ≤ coordAt region1.max j ∧
    coordAt region1.min j ≤ coordAt region2.max j

/-- The adjacency predicate the code actually implements, stated logically:
along SOME axis the bounds touch within ε, and along every other axis the
bounds overlap (R.max_d ≥ S.min_d and R.min_d ≤ S.max_d). -/
def AmendedAdjacent (region1 region2 : Region) : Prop :=
  ∃ dim, dim < region1.min.length ∧ touchesAt region1 region2 dim = true ∧
    ∀ d < region1.min.length, d ≠ dim →
      coordAt region2.min d ≤ coordAt region1.max d ∧
      coordAt region1.min d ≤ coordAt region2.max d

/-! Concrete instances used by counterexamples and witnesses. -/

/-- A well-formed resource configuration: max 10, rate 5/interval, burst 5, 100ms. -/
def exCfg : ResourceConfig :=
  { resourceType := "compute", maxTokens := 10, refillRate := 5, burstSize := 5
    refillInterval := 100 }

/-- A request for 4 compute tokens. -/
def exReq : ResourceRequest :=
  { agentId := "agent1", resourceType := "compute", tokensRequested := 4
    priority := 0, timeout := 1000 }

/-- Manager state after `initialize({compute ↦ exCfg})` at time 0, no quotas. -/
def exS0 : ManagerState :=
  initialState [exCfg] 0 (fun _ _ => none)

/-- After granting 4 compute tokens at time 0 (allocation id "alloc1"). -/
def exS1 : ManagerState :=
  (requestResources exS0 exReq 0 "alloc1").2

/-- After the refill loop visits the bucket at time 100. -/
def exS2 : ManagerState :=
  refillOp exS1 "compute" 100

/-- A second configuration re-using the resource-type name "compute". -/
def c3CfgB : ResourceConfig :=
  { resourceType := "compute", maxTokens := 7, refillRate := 1, burstSize := 2
    refillInterval := 50 }

/-- State with the "compute" bucket registered from `exCfg` at time 0. -/
def c3S1 : ManagerState :=
  (registerResource (initialState [] 0 (fun _ _ => none)) exCfg 0).2

/-- A drained "compute" bucket (0 of 10 tokens, last refilled at time 0). -/
def c4Bucket : TokenBucket :=
  { mkBucket exCfg 0 with currentTokens := 0 }

/-- A "compute" bucket holding 6 of 10 tokens. -/
def c8Bucket : TokenBucket :=
  { mkBucket exCfg 0 with currentTokens := 6 }

/-- An outstanding allocation of 4 compute tokens with id "alloc1". -/
def c8Alloc : Allocation :=
  { allocationId := "alloc1", agentId := "agent1", resourceType := "compute"
    tokensAllocated := 4, allocationTime := 0, expirationTime := 1000 }

/-- Manager state holding `c8Bucket` and the single allocation `c8Alloc`. -/
def c8State : ManagerState :=
  { buckets := updateBucket (fun _ => none) "compute" c8Bucket
    allocations := [c8Alloc]
    agentAllocations := fun _ _ => 0
    agentQuotas := fun _ _ => none }

/-- An agent context in a given lifecycle state. -/
def exContext (agentId : String) (st : LifecycleState) : AgentContext :=
  { id := agentId, name := "worker-1", type := "parse", parameters := []
    metadata := [], currentState := st }

/-- A lifecycle `Impl` with the default transition table, no handlers, and one
agent "a1" in the given state. -/
def exImpl (st : LifecycleState) : LifecycleImpl :=
  { agents := [("a1", exContext "a1" st)]
    transitions := defaultTransitions
    stateEntryHandlers := fun _ => none
    stateExitHandlers := fun _ => none }

/-- A lifecycle `Impl` with the default transition table and no agents. -/
def exImplEmpty : LifecycleImpl :=
  { agents := []
    transitions := defaultTransitions
    stateEntryHandlers := fun _ => none
    stateExitHandlers := fun _ => none }

/-- Six collinear 2-D points; the k-d tree splits them into two leaves. -/
def c2Points : List Point :=
  [ { coordinates := [1, 0], id := "P1", metadata := [] }
  , { coordinates := [2, 0], id := "P2", metadata := [] }
  , { coordinates := [3, 0], id := "P3", metadata := [] }
  , { coordinates := [4, 0], id := "P4", metadata := [] }
  , { coordinates := [5, 0], id := "P5", metadata := [] }
  , { coordinates := [6, 0], id := "P6", metadata := [] } ]

/-- The unit square [0,1] × [0,1]. -/
def c7R1 : Region :=
  { id := "R1", name := "Region 1", points := [], min := [0, 0], max := [1, 1] }

/-- The diagonally opposite unit square [1,2] × [1,2]: it touches `c7R1` only
at the corner (1,1), and touches along both axes at once. -/
def c7R2 : Region :=
  { id := "R2", name := "Region 2", points := [], min := [1, 1], max := [2, 2] }

/-- A single region, whose adjacency graph is necessarily empty. -/
def c9Region : Region :=
  { id := "R1", name := "Region 1", points := [], min := [0, 0], max := [1, 1] }

/-! Helper lemmas about outstanding-allocation sums. -/

theorem outstanding_nonneg (l : List Allocation)
    (h : ∀ a ∈ l, 0 ≤ a.tokensAllocated) (rt : String) :
    0 ≤ outstanding l rt := by
  induction l with
  | nil => simp [outstanding]
  | cons a rest ih =>
    have ha := h a (by simp)
    have hr := ih (fun b hb => h b (by simp [hb]))
    simp only [outstanding]
    split <;> omega

theorem outstanding_append (l1 l2 : List Allocation) (rt : String) :
    outstanding (l1 ++ l2) rt = outstanding l1 rt + outstanding l2 rt := by
  induction l1 with
  | nil => simp [outstanding]
  | cons a rest ih =>
    have hstep : (a :: rest) ++ l2 = a :: (rest ++ l2) := rfl
    rw [hstep]
    simp only [outstanding]
    rw [ih]
    omega

theorem le_outstanding_of_mem (l : List Allocation) (a : Allocation) (rt : String)
    (ha : a ∈ l) (hnn : ∀ b ∈ l, 0 ≤ b.tokensAllocated)
    (hrt : a.resourceType = rt) :
    a.tokensAllocated ≤ outstanding l rt := by
  induction l with
  | nil => simp at ha
  | cons b rest ih =>
    have hb := hnn b (by simp)
    have hrest : ∀ c ∈ rest, 0 ≤ c.tokensAllocated := fun c hc => hnn c (by simp [hc])
    rcases List.mem_cons.mp ha with rfl | hmem
    · simp only [outstanding, if_pos hrt]
      have := outstanding_nonneg rest hrest rt
      omega
    · have := ih hmem hrest
      simp only [outstanding]
      split <;> omega

theorem outstanding_filter_of_no_match (l : List Allocation) (allocId : String)
    (h : ∀ a ∈ l, a.allocationId ≠ allocId) (rt : String) :
    outstanding (l.filter fun a => ¬ a.allocationId = allocId) rt = outstanding l rt := by
  rw [List.filter_eq_self.mpr]
  intro a ha
  simpa using h a ha

theorem outstanding_erase (l : List Allocation) (allocId : String) (a0 : Allocation)
    (hp : l.Pairwise (fun a b => a.allocationId ≠ b.allocationId))
    (hfind : l.find? (fun a => a.allocationId = allocId) = some a0) (rt : String) :
    outstanding (l.filter fun a => ¬ a.allocationId = allocId) rt
      = outstanding l rt - (if a0.resourceType = rt then a0.tokensAllocated else 0) := by
  induction l with
  | nil => simp at hfind
  | cons a rest ih =>
    rcases List.pairwise_cons.mp hp with ⟨hhead, htail⟩
    by_cases hid : a.allocationId = allocId
    · have ha0 : a0 = a := by
        rw [List.find?_cons_of_pos _ (by simpa using hid)] at hfind
        exact (Option.some_inj.mp hfind).symm
      subst ha0
      have hrest : ∀ b ∈ rest, b.allocationId ≠ allocId := by
        intro b hb
        rw [← hid]
        exact fun hcontra => hhead b hb hcontra.symm
      rw [List.filter_cons_of_neg (by simpa using hid),
        outstanding_filter_of_no_match rest allocId hrest rt]
      simp only [outstanding]
      split <;> omega
    · rw [List.find?_cons_of_neg _ (by simpa using hid)] at hfind
      rw [List.filter_cons_of_pos (by simpa using hid)]
      simp only [outstanding, ih htail hfind]
      split <;> omega

/-! Helper lemmas about the bucket map and refill. -/

theorem updateBucket_self (f : String → Option TokenBucket) (rt : String)
    (b : TokenBucket) : updateBucket f rt b rt = some b := by
  simp [updateBucket]

theorem updateBucket_other (f : String → Option TokenBucket) (rt : String)
    (b : TokenBucket) (x : String) (h : x ≠ rt) : updateBucket f rt b x = f x := by
  simp [updateBucket, h]

theorem updateBucket_isSome (f : String → Option TokenBucket) (rt : String)
    (b : TokenBucket) (x : String) (h : ∃ c, f x = some c) :
    ∃ c, updateBucket f rt b x = some c := by
  by_cases hx : x = rt
  · exact ⟨b, by simp [updateBucket, hx]⟩
  · exact h.imp (fun c hc => by simp [updateBucket, hx, hc])

theorem refillBucket_fields (b : TokenBucket) (now : Int) :
    (refillBucket b now).resourceType = b.resourceType ∧
    (refillBucket b now).maxTokens = b.maxTokens ∧
    (refillBucket b now).refillRate = b.refillRate ∧
    (refillBucket b now).burstSize = b.burstSize ∧
    (refillBucket b now).refillInterval = b.refillInterval := by
  simp only [refillBucket]
  split <;> simp

theorem refillBucket_mono (b : TokenBucket) (now : Int)
    (h1 : b.currentTokens ≤ b.maxTokens) (hr : 0 ≤ b.refillRate)
    (hbb : 0 ≤ b.burstSize) (hi : 0 < b.refillInterval) :
    b.currentTokens ≤ (refillBucket b now).currentTokens ∧
    (refillBucket b now).currentTokens ≤ b.maxTokens := by
  simp only [refillBucket]
  split
  · next hcond =>
    have he : (0 : Int) ≤ now - b.lastRefill := le_trans hi.le hcond
    have hdiv : 0 ≤ (now - b.lastRefill).tdiv b.refillInterval := by
      rw [Int.tdiv_eq_ediv he hi.le]
      exact Int.ediv_nonneg he hi.le
    have hadd : 0 ≤ min ((now - b.lastRefill).tdiv b.refillInterval * b.refillRate) b.burstSize :=
      le_min (mul_nonneg hdiv hr) hbb
    constructor
    · exact le_min (by omega) h1
    · exact min_le_right _ _
  · exact ⟨le_rfl, h1⟩

/-! Inductive invariant of the token bucket manager. -/

theorem initialBuckets_good (now : Int) :
    ∀ (cfgs : List ResourceConfig) (acc : String → Option TokenBucket),
    (∀ rt b, acc rt = some b →
      b.currentTokens = b.maxTokens ∧ 0 ≤ b.maxTokens ∧ 0 ≤ b.refillRate ∧
      0 ≤ b.burstSize ∧ 0 < b.refillInterval) →
    (∀ c ∈ cfgs, WFConfig c) →
    ∀ rt b, (cfgs.foldl (fun f c => (createBucket f c now).2) acc) rt = some b →
      b.currentTokens = b.maxTokens ∧ 0 ≤ b.maxTokens ∧ 0 ≤ b.refillRate ∧
      0 ≤ b.burstSize ∧ 0 < b.refillInterval := by
  intro cfgs
  induction cfgs with
  | nil =>
    intro acc hacc _ rt b hb
    exact hacc rt b hb
  | cons c cs ihc =>
    intro acc hacc hwf rt b hb
    simp only [List.foldl_cons] at hb
    refine ihc _ ?_ (fun d hd => hwf d (by simp [hd])) rt b hb
    intro rt' b' hb'
    by_cases hrt : rt' = c.resourceType
    · have hb'' : b' = mkBucket c now := by
        have := hb'
        simp [createBucket, updateBucket, hrt] at this
        exact this.symm
      obtain ⟨w1, w2, w3, w4⟩ := hwf c (by simp)
      subst hb''
      exact ⟨rfl, w1, w2, w3, w4⟩
    · rw [show ((createBucket acc c now).2 rt' = acc rt') from by
        simp [createBucket, updateBucket, hrt]] at hb'
      exact hacc rt' b' hb'

theorem bucketInvariant_initial (configs : List ResourceConfig) (now : Int)
    (quotas : String → String → Option Int) (hwf : ∀ c ∈ configs, WFConfig c) :
    BucketInvariant (initialState configs now quotas) := by
  refine ⟨?_, by simp [initialState], by simp [initialState]⟩
  intro rt b hb
  obtain ⟨hcm, h2, h3, h4, h5⟩ :=
    initialBuckets_good now configs (fun _ => none) (by intro _ _ h; cases h) hwf rt b hb
  have hout : outstanding (initialState configs now quotas).allocations rt = 0 := by
    simp [initialState, outstanding]
  refine ⟨by omega, by omega, by omega, h3, h4, h5⟩

theorem bucketInvariant_request (s : ManagerState) (req : ResourceRequest)
    (now : Int) (allocId : String) (hreq : 0 ≤ req.tokensRequested)
    (hfresh : ∀ a ∈ s.allocations, a.allocationId ≠ allocId)
    (ih : BucketInvariant s) :
    BucketInvariant (requestResources s req now allocId).2 := by
  obtain ⟨ihb, iha, ihp⟩ := ih
  cases hb : s.buckets req.resourceType with
  | none =>
    simp only [requestResources, hb]
    exact ⟨ihb, iha, ihp⟩
  | some bucket0 =>
    obtain ⟨q1, q2, q3, q4, q5, q6⟩ := ihb _ _ hb
    simp only [requestResources, hb]
    split
    · -- quota denied: only the statistics counter changes
      dsimp only
      refine ⟨?_, ?_, ihp⟩
      · intro rt b hb'
        dsimp only at hb' ⊢
        by_cases hrt : rt = req.resourceType
        · subst hrt
          rw [updateBucket_self] at hb'
          obtain rfl : { bucket0 with totalRequests := bucket0.totalRequests + 1 } = b :=
            Option.some_inj.mp hb'
          exact ⟨q1, q2, q3, q4, q5, q6⟩
        · rw [updateBucket_other _ _ _ _ hrt] at hb'
          exact ihb _ _ hb'
      · intro a ha
        obtain ⟨h1, hc⟩ := iha a ha
        exact ⟨h1, updateBucket_isSome _ _ _ _ hc⟩
    · -- quota passed: refill, then grant or deny on availability
      have hrm := refillBucket_mono { bucket0 with totalRequests := bucket0.totalRequests + 1 }
        now q2 q4 q5 q6
      have hrf := refillBucket_fields { bucket0 with totalRequests := bucket0.totalRequests + 1 } now
      dsimp only at hrm hrf
      split
      · next hk =>
        dsimp only
        have hfilter : s.allocations.filter (fun b => ¬ b.allocationId = allocId) = s.allocations :=
          List.filter_eq_self.mpr (fun a ha => by simpa using hfresh a ha)
        have hins : ∀ rt, outstanding (insertAllocation s.allocations
            { allocationId := allocId, agentId := req.agentId
              resourceType := req.resourceType, tokensAllocated := req.tokensRequested
              allocationTime := now, expirationTime := now + req.timeout }) rt =
            outstanding s.allocations rt +
              (if req.resourceType = rt then req.tokensRequested else 0) := by
          intro rt
          rw [insertAllocation, hfilter, outstanding_append]
          simp [outstanding]
        refine ⟨?_, ?_, ?_⟩
        · intro rt b hb'
          dsimp only at hb' ⊢
          by_cases hrt : rt = req.resourceType
          · subst hrt
            rw [updateBucket_self] at hb'
            obtain rfl := (Option.some_inj.mp hb').symm
            rw [hins, if_pos (rfl : req.resourceType = req.resourceType)]
            have h2 := hrm.1
            have h3 := hrm.2
            refine ⟨?_, ?_, ?_, ?_, ?_, ?_⟩
            · dsimp only
              omega
            · dsimp only
              rw [hrf.2.1]
              omega
            · dsimp only
              rw [hrf.2.1]
              omega
            · dsimp only
              rw [hrf.2.2.1]
              exact q4
            · dsimp only
              rw [hrf.2.2.2.1]
              exact q5
            · dsimp only
              rw [hrf.2.2.2.2]
              exact q6
          · rw [updateBucket_other _ _ _ _ hrt] at hb'
            obtain ⟨w1, w2, w3, w4, w5, w6⟩ := ihb _ _ hb'
            rw [hins, if_neg (fun hcontra => hrt hcontra.symm)]
            exact ⟨w1, w2, by omega, w4, w5, w6⟩
        · intro a ha
          dsimp only at ha ⊢
          rw [insertAllocation, hfilter] at ha
          rcases List.mem_append.mp ha with hmem | hmem
          · obtain ⟨h1, hc⟩ := iha a hmem
            exact ⟨h1, updateBucket_isSome _ _ _ _ hc⟩
          · obtain rfl := List.mem_singleton.mp hmem
            exact ⟨hreq, ⟨_, updateBucket_self _ _ _⟩⟩
        · dsimp only
          rw [insertAllocation, hfilter, List.pairwise_append]
          refine ⟨ihp, by simp, fun a ha b hbmem => ?_⟩
          obtain rfl := List.mem_singleton.mp hbmem
          exact hfresh a ha
      · dsimp only
        refine ⟨?_, ?_, ihp⟩
        · intro rt b hb'
          dsimp only at hb' ⊢
          by_cases hrt : rt = req.resourceType
          · subst hrt
            rw [updateBucket_self] at hb'
            obtain rfl := (Option.some_inj.mp hb').symm
            have h2 := hrm.1
            have h3 := hrm.2
            simp only [hrf.2.1] at h3
            rw [hrf.2.1, hrf.2.2.1, hrf.2.2.2.1, hrf.2.2.2.2]
            exact ⟨by omega, h3, by omega, q4, q5, q6⟩
          · rw [updateBucket_other _ _ _ _ hrt] at hb'
            exact ihb _ _ hb'
        · intro a ha
          obtain ⟨h1, hc⟩ := iha a ha
          exact ⟨h1, updateBucket_isSome _ _ _ _ hc⟩

theorem bucketInvariant_release (s : ManagerState) (allocId : String)
    (ih : BucketInvariant s) : BucketInvariant (releaseResources s allocId).2 := by
  obtain ⟨ihb, iha, ihp⟩ := ih
  cases hfind : s.allocations.find? (fun a => a.allocationId = allocId) with
  | none =>
    simp only [releaseResources, hfind]
    exact ⟨ihb, iha, ihp⟩
  | some a0 =>
    have hmem := List.mem_of_find?_eq_some hfind
    obtain ⟨ht0, b0, hb0⟩ := iha a0 hmem
    obtain ⟨w1, w2, w3, w4, w5, w6⟩ := ihb _ _ hb0
    have ht1 : a0.tokensAllocated ≤ outstanding s.allocations a0.resourceType :=
      le_outstanding_of_mem s.allocations a0 a0.resourceType hmem
        (fun b hbm => (iha b hbm).1) rfl
    have herase := outstanding_erase s.allocations allocId a0 ihp hfind
    simp only [releaseResources, hfind, hb0]
    refine ⟨?_, ?_, ?_⟩
    · intro rt b hb'
      dsimp only at hb' ⊢
      by_cases hrt : rt = a0.resourceType
      · subst hrt
        rw [updateBucket_self] at hb'
        obtain rfl := (Option.some_inj.mp hb').symm
        rw [herase, if_pos rfl]
        have hchoice := min_choice (b0.currentTokens + a0.tokensAllocated) b0.maxTokens
        refine ⟨?_, ?_, ?_, w4, w5, w6⟩ <;> dsimp only <;>
          rcases hchoice with h | h <;> omega
      · rw [updateBucket_other _ _ _ _ hrt] at hb'
        obtain ⟨v1, v2, v3, v4, v5, v6⟩ := ihb _ _ hb'
        rw [herase, if_neg (fun hcontra => hrt hcontra.symm)]
        exact ⟨v1, v2, by omega, v4, v5, v6⟩
    · intro a ha
      have hmem' := List.mem_of_mem_filter ha
      obtain ⟨h1, hc⟩ := iha a hmem'
      exact ⟨h1, updateBucket_isSome _ _ _ _ hc⟩
    · exact List.Pairwise.sublist (List.filter_sublist _) ihp

theorem bucketInvariant_refillOp (s : ManagerState) (rt : String) (now : Int)
    (ih : BucketInvariant s) : BucketInvariant (refillOp s rt now) := by
  obtain ⟨ihb, iha, ihp⟩ := ih
  cases hb : s.buckets rt with
  | none =>
    simp only [refillOp, hb]
    exact ⟨ihb, iha, ihp⟩
  | some b =>
    obtain ⟨q1, q2, q3, q4, q5, q6⟩ := ihb _ _ hb
    have hrm := refillBucket_mono b now q2 q4 q5 q6
    have hrf := refillBucket_fields b now
    simp only [refillOp, hb]
    refine ⟨?_, ?_, ihp⟩
    · intro rt' b' hb'
      dsimp only at hb' ⊢
      by_cases hrt : rt' = rt
      · subst hrt
        rw [updateBucket_self] at hb'
        obtain rfl := (Option.some_inj.mp hb').symm
        rw [hrf.2.1, hrf.2.2.1, hrf.2.2.2.1, hrf.2.2.2.2]
        have h2 := hrm.1
        have h3 := hrm.2
        refine ⟨by omega, h3, by omega, q4, q5, q6⟩
      · rw [updateBucket_other _ _ _ _ hrt] at hb'
        exact ihb _ _ hb'
    · intro a ha
      obtain ⟨h1, hc⟩ := iha a ha
      exact ⟨h1, updateBucket_isSome _ _ _ _ hc⟩

theorem tbReachable_invariant (s : ManagerState) (h : TBReachable s) :
    BucketInvariant s := by
  induction h with
  | init configs now quotas hwf => exact bucketInvariant_initial configs now quotas hwf
  | request s req now allocId hs hreq hfresh ih =>
    exact bucketInvariant_request s req now allocId hreq hfresh ih
  | release s allocId hs ih => exact bucketInvariant_release s allocId ih
  | refill s rt now hs ih => exact bucketInvariant_refillOp s rt now ih

theorem releaseResources_unknown (s : ManagerState) (allocId : String)
    (hfind : s.allocations.find? (fun a => a.allocationId = allocId) = none) :
    releaseResources s allocId = (false, s) := by
  simp only [releaseResources, hfind]

/-! Claim C1. -/

/-- C1 (counterexample): starting from the bucket {max 10, rate 5, burst 5,
interval 100ms} initialized at time 0, granting 4 tokens at time 0 and then
refilling at time 100 yields a reachable state where the bucket holds 10 of 10
tokens while 4 tokens are still outstanding: the claimed equality
"sum of outstanding allocations = max − current" fails (4 ≠ 10 − 10). -/
theorem C1_counterexample : TBReachable exS2 ∧ ¬ SumEqInvariant exS2 := by
  have h0 : TBReachable exS0 :=
    TBReachable.init [exCfg] 0 (fun _ _ => none) (by
      intro c hc
      rw [List.mem_singleton] at hc
      subst hc
      exact ⟨by decide, by decide, by decide, by decide⟩)
  have h1 : TBReachable exS1 :=
    TBReachable.request exS0 exReq 0 "alloc1" h0 (by decide)
      (by intro a ha; simp [exS0, initialState] at ha)
  refine ⟨TBReachable.refill exS1 "compute" 100 h1, ?_⟩
  intro h
  have hb : exS2.buckets "compute" = some ⟨"compute", 10, 10, 5, 5, 100, 100, 1, 1, 4⟩ := by
    decide
  have heq := (h "compute" _ hb).2.2
  rw [show outstanding exS2.allocations "compute" = 4 from by decide] at heq
  exact absurd heq (by decide)

/-- C1 (amended): for every token bucket and every sequence of requestResources
(for non-negative token counts, with fresh allocation ids), releaseResources and
refill operations from an `initialize` with well-formed configs, at all times
0 ≤ currentTokens ≤ maxTokens, and the sum of tokensAllocated over the bucket's
outstanding allocations is at least maxTokens − currentTokens (a refill that
adds tokens only raises currentTokens, so the spec's equality weakens to ≥). -/
theorem C1_amended_invariant (s : ManagerState) (h : TBReachable s) (rt : String)
    (b : TokenBucket) (hb : s.buckets rt = some b) :
    0 ≤ b.currentTokens ∧ b.currentTokens ≤ b.maxTokens ∧
    b.maxTokens - b.currentTokens ≤ outstanding s.allocations rt := by
  obtain ⟨ihb, -, -⟩ := tbReachable_invariant s h
  obtain ⟨h1, h2, h3, -⟩ := ihb rt b hb
  exact ⟨h1, h2, h3⟩

/-- Witness for C1 (amended) on the freshly initialized "compute" bucket. -/
theorem C1_amended_invariant_witness :
    0 ≤ (mkBucket exCfg 0).currentTokens ∧
    (mkBucket exCfg 0).currentTokens ≤ (mkBucket exCfg 0).maxTokens ∧
    (mkBucket exCfg 0).maxTokens - (mkBucket exCfg 0).currentTokens ≤
      outstanding exS0.allocations "compute" :=
  C1_amended_invariant exS0
    (TBReachable.init [exCfg] 0 (fun _ _ => none) (by
      intro c hc
      rw [List.mem_singleton] at hc
      subst hc
      exact ⟨by decide, by decide, by decide, by decide⟩))
    "compute" (mkBucket exCfg 0) (by decide)

/-! Claim C3. -/

/-- C3 (counterexample): with "compute" already registered (max 10 bucket),
registering a second config under the same name returns true — not failure —
and replaces the existing bucket (the bucket changes to a full max-7 bucket). -/
theorem C3_counterexample :
    (registerResource c3S1 c3CfgB 5).1 = true ∧
    (registerResource c3S1 c3CfgB 5).2.buckets "compute" ≠ c3S1.buckets "compute" :=
  ⟨rfl, by decide⟩

/-- C3 (amended): registerResource always succeeds (createBucket cannot fail):
for a name not yet registered it creates the bucket, and for a name already
registered it overwrites the existing bucket with a fresh full bucket built from
the new config; buckets under other names are unchanged. -/
theorem C3_amended_register (s : ManagerState) (config : ResourceConfig) (now : Int) :
    (registerResource s config now).1 = true ∧
    (registerResource s config now).2.buckets config.resourceType =
      some (mkBucket config now) ∧
    (∀ rt, rt ≠ config.resourceType →
      (registerResource s config now).2.buckets rt = s.buckets rt) := by
  refine ⟨rfl, ?_, ?_⟩
  · simp [registerResource, createBucket, updateBucket]
  · intro rt hrt
    simp [registerResource, createBucket, updateBucket, hrt]

/-- Witness for C3 (amended): re-registering "compute" and a distinct name. -/
theorem C3_amended_register_witness :
    (registerResource c3S1 c3CfgB 5).1 = true ∧
    (registerResource c3S1 c3CfgB 5).2.buckets "compute" = some (mkBucket c3CfgB 5) ∧
    (registerResource c3S1 c3CfgB 5).2.buckets "llm" = c3S1.buckets "llm" := by
  obtain ⟨h1, h2, h3⟩ := C3_amended_register c3S1 c3CfgB 5
  exact ⟨h1, h2, h3 "llm" (by decide)⟩

/-! Claim C4. -/

/-- C4 (counterexample): refilling the drained bucket (interval 100ms, last
refill 0) at time 150 sets lastRefill to 150 — the code discards the 50ms
remainder — whereas the spec's refill advances lastRefill only by the single
consumed interval, to 100; the two refills produce different buckets. -/
theorem C4_counterexample :
    (refillBucket c4Bucket 150).lastRefill = 150 ∧
    (refillBucketSpec c4Bucket 150).lastRefill = 100 ∧
    refillBucket c4Bucket 150 ≠ refillBucketSpec c4Bucket 150 :=
  ⟨by decide, by decide, by decide⟩

/-- C4 (amended): for a refill step with a positive interval, non-negative burst
size, current ≤ max and a non-decreasing clock, the tokens added agree with the
spec formula floor(elapsed / refillInterval) × refillRate clamped to burstSize
and then clamped so current ≤ max; but lastRefill is set to now whenever at
least one whole interval elapsed (not advanced by the consumed intervals). -/
theorem C4_amended_refill (b : TokenBucket) (now : Int)
    (hi : 0 < b.refillInterval) (hc : b.currentTokens ≤ b.maxTokens)
    (hbb : 0 ≤ b.burstSize) (he : b.lastRefill ≤ now) :
    (refillBucket b now).currentTokens = (refillBucketSpec b now).currentTokens ∧
    (refillBucket b now).lastRefill =
      (if b.refillInterval ≤ now - b.lastRefill then now else b.lastRefill) := by
  have h0 : (0 : Int) ≤ now - b.lastRefill := by omega
  constructor
  · simp only [refillBucket, refillBucketSpec]
    split
    · rw [Int.tdiv_eq_ediv h0 hi.le, Int.fdiv_eq_ediv _ hi.le]
    · next hcond =>
      have hdiv0 : (now - b.lastRefill).fdiv b.refillInterval = 0 := by
        rw [Int.fdiv_eq_ediv _ hi.le]
        exact Int.ediv_eq_zero_of_lt h0 (by omega)
      rw [hdiv0, zero_mul, min_eq_left hbb, add_zero, min_eq_left hc]
  · simp only [refillBucket]
    split
    · rfl
    · rfl

/-- Witness for C4 (amended) on the drained bucket at time 150. -/
theorem C4_amended_refill_witness :
    (refillBucket c4Bucket 150).currentTokens = (refillBucketSpec c4Bucket 150).currentTokens ∧
    (refillBucket c4Bucket 150).lastRefill =
      (if c4Bucket.refillInterval ≤ 150 - c4Bucket.lastRefill then 150 else c4Bucket.lastRefill) :=
  C4_amended_refill c4Bucket 150 (by decide) (by decide) (by decide) (by decide)

/-! Claim C8. -/

/-- C8: releaseResources is idempotent on unknown allocation ids — it returns
false and changes nothing — and on a known id it returns the held tokens to the
allocation's bucket clamped at maxTokens, removes the allocation, and a second
release of the same id returns false leaving the state unchanged. -/
theorem C8_release_idempotent :
    (∀ s allocId, s.allocations.find? (fun a => a.allocationId = allocId) = none →
      releaseResources s allocId = (false, s)) ∧
    (∀ s allocId a0 b0,
      s.allocations.find? (fun a => a.allocationId = allocId) = some a0 →
      s.buckets a0.resourceType = some b0 →
      (releaseResources s allocId).1 = true ∧
      (releaseResources s allocId).2.buckets a0.resourceType =
        some { b0 with currentTokens := min (b0.currentTokens + a0.tokensAllocated) b0.maxTokens } ∧
      (releaseResources s allocId).2.allocations.find?
        (fun a => a.allocationId = allocId) = none ∧
      releaseResources (releaseResources s allocId).2 allocId =
        (false, (releaseResources s allocId).2)) := by
  constructor
  · exact releaseResources_unknown
  · intro s allocId a0 b0 hfind hb
    have hnone : (s.allocations.filter (fun a => ¬ a.allocationId = allocId)).find?
        (fun a => a.allocationId = allocId) = none := by
      rw [List.find?_eq_none]
      intro x hx
      have hmemf := List.of_mem_filter hx
      simpa using hmemf
    have hallocs : (releaseResources s allocId).2.allocations.find?
        (fun a => a.allocationId = allocId) = none := by
      simp only [releaseResources, hfind, hb]
      exact hnone
    refine ⟨?_, ?_, hallocs, ?_⟩
    · simp only [releaseResources, hfind, hb]
    · simp only [releaseResources, hfind, hb]
      exact updateBucket_self _ _ _
    · exact releaseResources_unknown _ _ hallocs

/-- Witness for C8 on a state holding one allocation of 4 "compute" tokens. -/
theorem C8_release_idempotent_witness :
    releaseResources c8State "missing" = (false, c8State) ∧
    (releaseResources c8State "alloc1").1 = true ∧
    (releaseResources c8State "alloc1").2.buckets "compute" =
      some { c8Bucket with currentTokens := min (c8Bucket.currentTokens + c8Alloc.tokensAllocated) c8Bucket.maxTokens } ∧
    releaseResources (releaseResources c8State "alloc1").2 "alloc1" =
      (false, (releaseResources c8State "alloc1").2) := by
  obtain ⟨hu, hk⟩ := C8_release_idempotent
  obtain ⟨k1, k2, k3, k4⟩ := hk c8State "alloc1" c8Alloc c8Bucket (by decide) (by decide)
  exact ⟨hu c8State "missing" (by decide), k1, k2, k4⟩

/-! Helper lemmas about the lifecycle FSM. -/

theorem triggerEvent_rejected (impl : LifecycleImpl) (agentId : String)
    (ctx : AgentContext) (e : LifecycleEvent) (eventData : String)
    (hctx : lookupAgent impl.agents agentId = some ctx)
    (habsent : findTransition impl.transitions ctx.currentState e = none) :
    triggerEvent impl agentId e eventData = (false, impl, []) := by
  simp only [triggerEvent, hctx, habsent]

theorem triggerEvent_found (impl : LifecycleImpl) (agentId : String)
    (ctx : AgentContext) (e : LifecycleEvent) (eventData : String) (tr : Transition)
    (hctx : lookupAgent impl.agents agentId = some ctx)
    (htr : findTransition impl.transitions ctx.currentState e = some tr) :
    (triggerEvent impl agentId e eventData).1 = true ∧
    (triggerEvent impl agentId e eventData).2.1.agents =
      updateAgent impl.agents agentId (postContext impl ctx eventData tr) := by
  cases hex : impl.stateExitHandlers ctx.currentState <;>
    cases htrh : tr.handler <;>
      cases hen : impl.stateEntryHandlers tr.targetState <;>
        simp only [triggerEvent, postContext, hctx, htr, hex, htrh, hen] <;>
          exact ⟨trivial, trivial⟩

theorem postContext_state (impl : LifecycleImpl) (ctx : AgentContext)
    (eventData : String) (tr : Transition)
    (hentry : ∀ h, impl.stateEntryHandlers tr.targetState = some h →
      ∀ c, (h c).currentState = c.currentState) :
    (postContext impl ctx eventData tr).currentState = tr.targetState := by
  simp only [postContext]
  cases hen : impl.stateEntryHandlers tr.targetState
  · rfl
  · next h => rw [hentry h hen]

theorem lookupAgent_updateAgent (agents : List (String × AgentContext))
    (agentId : String) (ctx' : AgentContext) :
    (lookupAgent agents agentId).isSome →
    lookupAgent (updateAgent agents agentId ctx') agentId = some ctx' := by
  induction agents with
  | nil => simp [lookupAgent]
  | cons p rest ih =>
    intro h
    by_cases hp : p.1 = agentId
    · simp [lookupAgent, updateAgent, List.find?_cons, hp]
    · have h' : (lookupAgent rest agentId).isSome := by
        simpa [lookupAgent, List.find?_cons, hp] using h
      simpa [lookupAgent, updateAgent, List.find?_cons, hp] using ih h'

/-! Claim C5. -/

/-- C5 (counterexample): the default transition table has no (Terminated,
Terminate) entry, so triggering Terminate on an agent already in Terminated is
rejected — triggerEvent returns false — rather than succeeding as the claim's
"for every lifecycle state" requires. -/
theorem C5_counterexample :
    (triggerEvent (exImpl .terminated) "a1" .terminate "").1 = false :=
  rfl

/-- C5 (amended): with the default transition table, Terminate succeeds and
moves the agent to Terminated from every state except Terminated itself; and
Terminated is absorbing: every event (including Terminate) on a Terminated
agent is rejected with no state change and no hooks invoked.  (For the success
half, a registered entry hook for Terminated is assumed to preserve
`currentState`, which the default no-hook setup trivially does.) -/
theorem C5_amended_terminate (impl : LifecycleImpl) (agentId : String)
    (ctx : AgentContext) (e : LifecycleEvent) (eventData : String)
    (htab : impl.transitions = defaultTransitions)
    (hctx : lookupAgent impl.agents agentId = some ctx)
    (hentry : ∀ h, impl.stateEntryHandlers .terminated = some h →
      ∀ c, (h c).currentState = c.currentState) :
    (ctx.currentState ≠ .terminated →
      (triggerEvent impl agentId .terminate eventData).1 = true ∧
      ∃ ctx', lookupAgent (triggerEvent impl agentId .terminate eventData).2.1.agents
          agentId = some ctx' ∧ ctx'.currentState = .terminated) ∧
    (ctx.currentState = .terminated →
      triggerEvent impl agentId e eventData = (false, impl, [])) := by
  constructor
  · intro hne
    have hfind : findTransition impl.transitions ctx.currentState .terminate =
        some ⟨.terminated, none⟩ := by
      rw [htab]
      cases hst : ctx.currentState <;> first | rfl | exact absurd hst hne
    obtain ⟨ht1, ht2⟩ :=
      triggerEvent_found impl agentId ctx .terminate eventData ⟨.terminated, none⟩ hctx hfind
    refine ⟨ht1, postContext impl ctx eventData ⟨.terminated, none⟩, ?_, ?_⟩
    · rw [ht2]
      exact lookupAgent_updateAgent impl.agents agentId _ (by rw [hctx]; rfl)
    · exact postContext_state impl ctx eventData ⟨.terminated, none⟩ hentry
  · intro hterm
    have hnone : findTransition impl.transitions ctx.currentState e = none := by
      rw [htab, hterm]
      cases e <;> rfl
    exact triggerEvent_rejected impl agentId ctx e eventData hctx hnone

/-- Witness for C5 (amended): Terminate from Ready succeeds; Terminate on a
Terminated agent is rejected with no change. -/
theorem C5_amended_terminate_witness :
    (triggerEvent (exImpl .ready) "a1" .terminate "").1 = true ∧
    triggerEvent (exImpl .terminated) "a1" .terminate "" =
      (false, exImpl .terminated, []) := by
  constructor
  · exact ((C5_amended_terminate (exImpl .ready) "a1" (exContext "a1" .ready) .pause "" rfl rfl
      (by intro h hsome c; simp [exImpl] at hsome)).1 (by decide)).1
  · exact (C5_amended_terminate (exImpl .terminated) "a1" (exContext "a1" .terminated)
      .terminate "" rfl rfl (by intro h hsome c; simp [exImpl] at hsome)).2 rfl

/-! Claim C6. -/

/-- C6: for every agent and every (state, event) pair absent from the transition
table, triggerEvent reports rejection (returns false) to the caller, the agent
registry is unchanged, and no exit, transition, or entry hook is invoked (the
hook-call trace is empty). -/
theorem C6_rejected_no_hooks (impl : LifecycleImpl) (agentId : String)
    (ctx : AgentContext) (e : LifecycleEvent) (eventData : String)
    (hctx : lookupAgent impl.agents agentId = some ctx)
    (habsent : findTransition impl.transitions ctx.currentState e = none) :
    triggerEvent impl agentId e eventData = (false, impl, []) :=
  triggerEvent_rejected impl agentId ctx e eventData hctx habsent

/-- Witness for C6: the spec's Scenario E — an agent in Ready receiving Pause,
a pair absent from the default table. -/
theorem C6_rejected_no_hooks_witness :
    triggerEvent (exImpl .ready) "a1" .pause "" = (false, exImpl .ready, []) :=
  C6_rejected_no_hooks (exImpl .ready) "a1" (exContext "a1" .ready) .pause "" rfl rfl

/-! Claim C10. -/

/-- C10: for every agent id not in the registry, getAgentState and
getAgentContext throw std::invalid_argument (modelled as `Except.error` with
the exception's message) rather than returning an in-band error value, whereas
triggerEvent on the same unknown id returns false without throwing (it is a
total function into `Bool × _`). -/
theorem C10_unknown_agent_errors (impl : LifecycleImpl) (agentId : String)
    (e : LifecycleEvent) (eventData : String)
    (h : lookupAgent impl.agents agentId = none) :
    getAgentState impl agentId = .error ("Agent not found: " ++ agentId) ∧
    getAgentContext impl agentId = .error ("Agent not found: " ++ agentId) ∧
    triggerEvent impl agentId e eventData = (false, impl, []) := by
  refine ⟨?_, ?_, ?_⟩ <;> simp only [getAgentState, getAgentContext, triggerEvent, h]

/-- Witness for C10 on an empty registry and the id "ghost". -/
theorem C10_unknown_agent_errors_witness :
    getAgentState exImplEmpty "ghost" = .error ("Agent not found: " ++ "ghost") ∧
    getAgentContext exImplEmpty "ghost" = .error ("Agent not found: " ++ "ghost") ∧
    triggerEvent exImplEmpty "ghost" .start "" = (false, exImplEmpty, []) :=
  C10_unknown_agent_errors exImplEmpty "ghost" .start "" rfl

/-! Claim C2. -/

/-- C2 (code bug): `buildKdTreeRecursive` derives every leaf's id from
`regions_.size() + 1`, but nothing is appended to `regions_` during the build
(it is cleared and repopulated only afterwards), so every leaf of one build
gets the same id.  On six collinear points with maxDepth 3 the tree has two
leaves and `getRegions` returns two regions both named "R1" — not the pairwise
distinct fresh ids the spec requires (and the id-keyed adjacency graph needs). -/
theorem C2_duplicate_ids_eval :
    (buildKdTree 2 3 c2Points 0).map (fun rs => rs.map Region.id) =
      some ["R1", "R1"] := by
  decide

/-! Claim C7. -/

theorem c7_adjacent : areRegionsAdjacent c7R1 c7R2 = true := by
  norm_num [areRegionsAdjacent, touchesAt, overlapsAt, coordAt, epsilonGeo, c7R1, c7R2]
  refine ⟨0, by norm_num, ?_⟩
  intro d hd
  right
  have hcases : d = 0 ∨ d = 1 := by omega
  rcases hcases with rfl | rfl <;> norm_num

theorem c7_touches_all : touchesAt c7R1 c7R2 0 = true ∧ touchesAt c7R1 c7R2 1 = true := by
  constructor <;> norm_num [touchesAt, coordAt, epsilonGeo, c7R1, c7R2]

theorem c7_mem : ("R1", "R2") ∈ (determineAdjacency [c7R1, c7R2]).2 := by
  have h1 : c7R1.id = "R1" := rfl
  have h2 : c7R2.id = "R2" := rfl
  simp [determineAdjacency, adjacencyEdges, c7_adjacent, h1, h2]

/-- C7 (counterexample): the corner-touching unit squares [0,1]² and [1,2]²
touch along BOTH axes, so the spec's "exactly one axis touches" predicate
rejects them; yet the code's adjacency graph relates them, because
`areRegionsAdjacent` only asks for SOME touching axis with overlap elsewhere
(and a touching axis also passes the non-strict overlap test). -/
theorem C7_counterexample :
    ("R1", "R2") ∈ (determineAdjacency [c7R1, c7R2]).2 ∧
    ¬ SpecAdjacentClaim c7R1 c7R2 := by
  refine ⟨c7_mem, ?_⟩
  intro h
  obtain ⟨h1, -⟩ := h
  have hcount : ((List.range c7R1.min.length).countP fun i => touchesAt c7R1 c7R2 i) = 2 := by
    rw [show c7R1.min.length = 2 from rfl, show List.range 2 = [0, 1] from rfl]
    simp [List.countP_cons, c7_touches_all.1, c7_touches_all.2]
  rw [hcount] at h1
  exact absurd h1 (by norm_num)

/-- C7 (amended): `areRegionsAdjacent` relates two regions iff along SOME axis
(not exactly one) their bounds touch within ε and along every other axis their
bounds overlap (R.max_d ≥ S.min_d and R.min_d ≤ S.max_d); and the adjacency
graph produced by `determineAdjacency` is symmetric. -/
theorem C7_amended_adjacency :
    (∀ region1 region2 : Region,
      areRegionsAdjacent region1 region2 = true ↔ AmendedAdjacent region1 region2) ∧
    (∀ regions : List Region, ∀ a b : String,
      (a, b) ∈ (determineAdjacency regions).2 → (b, a) ∈ (determineAdjacency regions).2) := by
  constructor
  · intro region1 region2
    constructor
    · intro h
      simp only [areRegionsAdjacent, List.any_eq_true, List.mem_range,
        Bool.and_eq_true, List.all_eq_true] at h
      obtain ⟨dim, hdim, htouch, hall⟩ := h
      refine ⟨dim, hdim, htouch, ?_⟩
      intro d hd hne
      have hd' := hall d hd
      rw [Bool.or_eq_true] at hd'
      rcases hd' with heq | hov
      · exact absurd (by simpa using heq) hne
      · simpa [overlapsAt, not_or, not_lt] using hov
    · rintro ⟨dim, hdim, htouch, hall⟩
      simp only [areRegionsAdjacent, List.any_eq_true, List.mem_range,
        Bool.and_eq_true, List.all_eq_true]
      refine ⟨dim, hdim, htouch, ?_⟩
      intro d hd
      rw [Bool.or_eq_true]
      by_cases hdd : d = dim
      · exact Or.inl (by simpa using hdd)
      · have hov := hall d hd hdd
        right
        simpa [overlapsAt, not_or, not_lt] using hov
  · have hgen : ∀ l : List Region, ∀ a b : String,
        (a, b) ∈ adjacencyEdges l → (b, a) ∈ adjacencyEdges l := by
      intro l
      induction l with
      | nil => intro a b h; simp [adjacencyEdges] at h
      | cons r rest ih =>
        intro a b h
        simp only [adjacencyEdges, List.mem_append] at h ⊢
        rcases h with h | h
        · left
          simp only [List.mem_flatten, List.mem_map] at h ⊢
          obtain ⟨lpair, ⟨s, hs, rfl⟩, hab⟩ := h
          refine ⟨[(r.id, s.id), (s.id, r.id)], ⟨s, hs, rfl⟩, ?_⟩
          simp only [List.mem_cons, List.mem_singleton, Prod.mk.injEq] at hab ⊢
          rcases hab with ⟨rfl, rfl⟩ | ⟨⟨rfl, rfl⟩ | hfalse⟩
          · right; left; exact ⟨rfl, rfl⟩
          · left; exact ⟨rfl, rfl⟩
          · simp at hfalse
        · right; exact ih a b h
    intro regions a b hmem
    by_cases hE : regions.isEmpty
    · rw [determineAdjacency, if_pos hE] at hmem
      simp at hmem
    · rw [determineAdjacency, if_neg hE] at hmem ⊢
      exact hgen regions a b hmem

/-- Witness for C7 (amended) on the two corner-touching unit squares. -/
theorem C7_amended_adjacency_witness :
    (areRegionsAdjacent c7R1 c7R2 = true ↔ AmendedAdjacent c7R1 c7R2) ∧
    ("R2", "R1") ∈ (determineAdjacency [c7R1, c7R2]).2 :=
  ⟨C7_amended_adjacency.1 c7R1 c7R2,
   C7_amended_adjacency.2 [c7R1, c7R2] "R1" "R2" c7_mem⟩

/-! Claim C9. -/

/-- C9: for every non-empty region set in which no two regions are adjacent —
the adjacency graph built by determineAdjacency is empty, e.g. a single region —
determineAdjacency itself reports success, but assignColors returns false and
leaves the previous coloredRegions untouched (produces no coloring), even
though a trivial coloring exists vacuously. -/
theorem C9_empty_graph_uncolorable (regions : List Region)
    (prev : List ColoredRegion)
    (hne : regions.isEmpty = false)
    (hempty : (determineAdjacency regions).2 = []) :
    (determineAdjacency regions).1 = true ∧
    assignColors regions (determineAdjacency regions).2 prev = (false, prev) := by
  constructor
  · simp [determineAdjacency, hne]
  · rw [hempty]
    simp [assignColors]

/-- Witness for C9: a single region, whose adjacency graph is empty. -/
theorem C9_empty_graph_uncolorable_witness :
    (determineAdjacency [c9Region]).1 = true ∧
    assignColors [c9Region] (determineAdjacency [c9Region]).2 [] = (false, []) :=
  C9_empty_graph_uncolorable [c9Region] [] rfl rfl

end DistPrompt
